import Mathlib

/-!
# SecureBank Simulator: the React client and the ledger contract it consumes

The development has two parts.

* `SecureBank.Client` embeds the JavaScript sources: `services/api.js`,
  `components/TransactionForm.js`, `components/TransactionHistory.js` and
  `components/AccountList.js`.  JavaScript values are a small inductive type,
  an awaited HTTP call is a function of the remote answer that also records the
  request, and React state is passed explicitly.  Host builtins (`parseInt`,
  `parseFloat`, `Number.prototype.toFixed`, `String.prototype.toLowerCase`, ...)
  are fields of a `Host` record.
* `SecureBank.Ledger` is the server-side ledger core, which is not part of the
  JavaScript sources.
-/

set_option autoImplicit false

namespace SecureBank

/-! ## JavaScript values -/

/-- A JavaScript number: `NaN`, an infinity, or a finite value (both zeros are `finite 0`). -/
inductive JSNumber where
  | nan
  | infinity (negative : Bool)
  | finite (q : ℚ)
  deriving DecidableEq, Repr

/-- A JavaScript value: the primitives and plain objects (own properties, in order). -/
inductive JSValue where
  | undefined
  | null
  | bool (b : Bool)
  | number (x : JSNumber)
  | string (s : String)
  | object (fields : List (String × JSValue))
  deriving Repr

namespace JSNumber

/-- ToBoolean on numbers: `NaN` and zero are falsy. -/
def truthy : JSNumber → Bool
  | nan => false
  | infinity _ => true
  | finite q => decide (q ≠ 0)

end JSNumber

namespace JSValue

/-- ToBoolean: `undefined`, `null`, `false`, `0`, `NaN` and `''` are falsy. -/
def truthy : JSValue → Bool
  | undefined => false
  | null => false
  | bool b => b
  | number x => x.truthy
  | string s => decide (s ≠ "")
  | object _ => true

/-- The operator `a || b`: `a` when it is truthy, otherwise `b`. -/
def or (a b : JSValue) : JSValue := if a.truthy then a else b

/-- The operator `a && b`: `a` when it is falsy, otherwise `b`. -/
def and (a b : JSValue) : JSValue := if a.truthy then b else a

/-- Own-property lookup in a property list. -/
def lookup (k : String) : List (String × JSValue) → JSValue
  | [] => undefined
  | (k', v) :: rest => if k' = k then v else lookup k rest

/-- Optional chaining `v?.k`: `undefined` on `undefined` and `null`; the property of an
object; `undefined` on the other primitives (none of the names read here is inherited). -/
def optChain (v : JSValue) (k : String) : JSValue :=
  match v with
  | object fields => lookup k fields
  | _ => undefined

/-- ToString, with the formatting of numbers supplied by the host. -/
def toStr (numberToString : JSNumber → String) : JSValue → String
  | undefined => "undefined"
  | null => "null"
  | bool b => if b then "true" else "false"
  | number x => numberToString x
  | string s => s
  | object _ => "[object Object]"

end JSValue

/-- Builtins of the JavaScript host that the components call. -/
structure Host where
  /-- The global `parseInt(string)`. -/
  parseInt : String → JSNumber
  /-- The global `parseFloat(string)`. -/
  parseFloat : String → JSNumber
  /-- Number-to-string conversion, as in template literals. -/
  numberToString : JSNumber → String
  /-- The method `Number.prototype.toFixed(digits)`. -/
  toFixed : JSNumber → Nat → String
  /-- The method `String.prototype.toLowerCase()`. -/
  toLowerCase : String → String
  /-- The composite `new Date(dateString).toLocaleString()`. -/
  toLocaleString : String → String
  /-- Message of the `TypeError` raised when a property of `undefined` is read. -/
  undefinedReadMessage : String

namespace Client

/-! ## `services/api.js` -/

/-- HTTP methods used by the client. -/
inductive Method where
  | GET | POST | PUT | DELETE
  deriving DecidableEq, Repr

/-- One call made on the axios instance `api`: method, path relative to the base URL,
and the data argument of the call (absent for `api.get`). -/
structure Request where
  method : Method
  url : String
  data : Option JSValue

/-- What a rejected call is caught as: an error object with its `message` and `response`
properties (`response` is `undefined` when the server never answered). -/
structure ErrorObj where
  message : JSValue
  response : JSValue

/-- How an awaited call settles: fulfilled with a response whose `data` is given, or rejected. -/
inductive Outcome (α : Type) where
  | resolved (data : α)
  | rejected (err : ErrorObj)

/-- An awaited call: given the remote side and the requests made so far, the settled
outcome together with the extended list of requests. -/
abbrev Call (α : Type) := (Request → Outcome α) → List Request → Outcome α × List Request

namespace api

/-- The awaited call `api.get(url)`. -/
def get {α : Type} (url : String) : Call α :=
  fun remote log =>
    let req : Request := { method := .GET, url := url, data := none }
    (remote req, log ++ [req])

/-- The awaited call `api.post(url, data)`. -/
def post {α : Type} (url : String) (data : JSValue) : Call α :=
  fun remote log =>
    let req : Request := { method := .POST, url := url, data := some data }
    (remote req, log ++ [req])

end api

namespace transactionService

/-- Source: `getAllTransactions: () => api.get('/transactions')`. -/
def getAllTransactions {α : Type} : Call α :=
  api.get "/transactions"

/-- Source: `getTransactionById: (id) => api.get(`/transactions/${id}`)`. -/
def getTransactionById {α : Type} (host : Host) (id : JSValue) : Call α :=
  api.get ("/transactions/" ++ id.toStr host.numberToString)

/-- Source: `getTransactionsByAccountId: (accountId) => api.get(`/transactions/account/${accountId}`)`. -/
def getTransactionsByAccountId {α : Type} (host : Host) (accountId : JSValue) : Call α :=
  api.get ("/transactions/account/" ++ accountId.toStr host.numberToString)

/-- Source: `transfer: (fromAccountId, toAccountId, amount, description) =>
api.post('/transactions/transfer', { fromAccountId, toAccountId, amount, description })`. -/
def transfer {α : Type} (fromAccountId toAccountId amount description : JSValue) : Call α :=
  api.post "/transactions/transfer"
    (.object [("fromAccountId", fromAccountId), ("toAccountId", toAccountId),
      ("amount", amount), ("description", description)])

/-- Source: `deposit: (accountId, amount, description) =>
api.post('/transactions/deposit', { accountId, amount, description })`. -/
def deposit {α : Type} (accountId amount description : JSValue) : Call α :=
  api.post "/transactions/deposit"
    (.object [("accountId", accountId), ("amount", amount), ("description", description)])

/-- Source: `withdraw: (accountId, amount, description) =>
api.post('/transactions/withdraw', { accountId, amount, description })`. -/
def withdraw {α : Type} (accountId amount description : JSValue) : Call α :=
  api.post "/transactions/withdraw"
    (.object [("accountId", accountId), ("amount", amount), ("description", description)])

end transactionService

/-! ## Records exchanged with the API -/

/-- A transaction as the API returns it.  Fields on which the components call string or
number methods carry that type; the others are arbitrary values. -/
structure Transaction where
  id : JSValue
  transactionType : String
  fromAccountId : JSValue
  toAccountId : JSValue
  amount : JSNumber
  description : JSValue
  status : String
  createdAt : String

/-- An account as the API returns it. -/
structure Account where
  id : JSValue
  accountNumber : String
  accountHolderName : String
  email : String
  accountType : String
  balance : JSNumber

/-! ## `components/TransactionForm.js` -/

/-- The `formData` state: every field holds the string value of its form control. -/
structure FormData where
  fromAccountId : String
  toAccountId : String
  accountId : String
  amount : String
  description : String
  deriving DecidableEq, Repr

/-- The `message` state when it is not `null`. -/
structure Message where
  type : String
  text : JSValue

/-- State of the `TransactionForm` component. -/
structure FormState where
  activeTab : String
  formData : FormData
  loading : Bool
  message : Option Message

/-- The form data that `resetForm` installs. -/
def resetForm : FormData :=
  { fromAccountId := "", toAccountId := "", accountId := "", amount := "", description := "" }

/-- The initial state of the component (`useState` defaults). -/
def FormState.initial : FormState :=
  { activeTab := "transfer", formData := resetForm, loading := false, message := none }

/-- The `catch (err)` branch of `handleSubmit`: the message it installs,
`err.response?.data?.message || 'Transaction failed: ' + err.message`. -/
def handleSubmitCatch (host : Host) (err : ErrorObj) : Message :=
  { type := "error"
    text := ((err.response.optChain "data").optChain "message").or
      (.string ("Transaction failed: " ++ err.message.toStr host.numberToString)) }

/-- The service call selected by the `if`/`else if` chain of `handleSubmit`; `none` when
the active tab matches no branch and `response` stays `undefined`. -/
def handleSubmitCall (host : Host) (activeTab : String) (formData : FormData) :
    Option (Call Transaction) :=
  let amount := JSValue.number (host.parseFloat formData.amount)
  if activeTab = "transfer" then
    some (transactionService.transfer
      (.number (host.parseInt formData.fromAccountId))
      (.number (host.parseInt formData.toAccountId))
      amount
      ((JSValue.string formData.description).or (.string "Transfer")))
  else if activeTab = "deposit" then
    some (transactionService.deposit
      (.number (host.parseInt formData.accountId))
      amount
      ((JSValue.string formData.description).or (.string "Deposit")))
  else if activeTab = "withdraw" then
    some (transactionService.withdraw
      (.number (host.parseInt formData.accountId))
      amount
      ((JSValue.string formData.description).or (.string "Withdrawal")))
  else
    none

/-- Result of one run of `handleSubmit`: the state after the `finally` block, the requests
made, and whether the statement that notifies `onTransactionComplete` was reached. -/
structure SubmitResult where
  state : FormState
  requests : List Request
  completed : Bool

/-- The handler `handleSubmit`, run against a remote side.  `setLoading(true)` and
`setMessage(null)` come first; the `try` block makes the call of the active tab and, when
it is fulfilled (with a response whose `data` is a transaction), installs the success
message, resets the form and notifies the parent, whose callback in `App.js` only
increments `refreshKey`; a rejection, or the `TypeError` of reading `response.data` when
no call was made, goes to the `catch` branch; `finally` clears `loading`. -/
def handleSubmit (host : Host) (remote : Request → Outcome Transaction) (st : FormState) :
    SubmitResult :=
  match handleSubmitCall host st.activeTab st.formData with
  | some call =>
    match call remote [] with
    | (.resolved data, log) =>
      { state :=
          { st with
            formData := resetForm
            loading := false
            message := some
              { type := "success"
                text := .string ("Transaction completed successfully! ID: " ++
                  data.id.toStr host.numberToString) } }
        requests := log
        completed := true }
    | (.rejected err, log) =>
      { state := { st with loading := false, message := some (handleSubmitCatch host err) }
        requests := log
        completed := false }
  | none =>
    { state :=
        { st with
          loading := false
          message := some (handleSubmitCatch host
            { message := .string host.undefinedReadMessage, response := .undefined }) }
      requests := []
      completed := false }

/-! ## `components/TransactionHistory.js` -/

/-- State of the `TransactionHistory` component; `error` is `null` or a string. -/
structure HistoryState where
  transactions : List Transaction
  loading : Bool
  error : Option String

/-- The initial state of the component (`useState` defaults). -/
def HistoryState.initial : HistoryState :=
  { transactions := [], loading := true, error := none }

/-- The call chosen by the conditional of `loadTransactions`:
`accountId ? getTransactionsByAccountId(accountId) : getAllTransactions()`.
An `accountId` prop that was not supplied is `undefined`. -/
def loadTransactionsCall (host : Host) (accountId : JSValue) : Call (List Transaction) :=
  if accountId.truthy then transactionService.getTransactionsByAccountId host accountId
  else transactionService.getAllTransactions

/-- Result of one run of `loadTransactions`: the state after `finally` and the requests made. -/
structure LoadResult where
  state : HistoryState
  requests : List Request

/-- The function `loadTransactions`, run against a remote side. -/
def loadTransactions (host : Host) (accountId : JSValue)
    (remote : Request → Outcome (List Transaction)) (st : HistoryState) : LoadResult :=
  match loadTransactionsCall host accountId remote [] with
  | (.resolved data, log) =>
    { state := { transactions := data, loading := false, error := none }
      requests := log }
  | (.rejected err, log) =>
    { state :=
        { st with
          loading := false
          error := some ("Failed to load transactions: " ++
            err.message.toStr host.numberToString) }
      requests := log }

/-- Source: `formatDate`, `new Date(dateString).toLocaleString()`. -/
def formatDate (host : Host) (dateString : String) : String :=
  host.toLocaleString dateString

/-- Source: `getTransactionTypeClass`, `type.toLowerCase()`. -/
def getTransactionTypeClass (host : Host) (type : String) : String :=
  host.toLowerCase type

/-- Source: `getStatusClass`, `status.toLowerCase()`. -/
def getStatusClass (host : Host) (status : String) : String :=
  host.toLowerCase status

/-- One `div.transaction-item`: the `key`, the class names and the child expressions of
its elements, in document order. -/
structure TransactionItem where
  key : JSValue
  typeClassName : String
  typeText : String
  idText : List JSValue
  descriptionText : JSValue
  accountsText : List JSValue
  amountClassName : String
  amountSign : String
  amountText : List JSValue
  statusClassName : String
  statusText : String
  dateText : String

/-- The element produced for one transaction by the callback of `transactions.map`. -/
def renderTransaction (host : Host) (transaction : Transaction) : TransactionItem :=
  { key := transaction.id
    typeClassName := "transaction-type " ++ getTransactionTypeClass host transaction.transactionType
    typeText := transaction.transactionType
    idText := [.string "#", transaction.id]
    descriptionText := transaction.description.or (.string "No description")
    accountsText :=
      [ transaction.fromAccountId.and
          (.string ("From: " ++ transaction.fromAccountId.toStr host.numberToString)),
        (transaction.fromAccountId.and transaction.toAccountId).and (.string " → "),
        transaction.toAccountId.and
          (.string ("To: " ++ transaction.toAccountId.toStr host.numberToString)) ]
    amountClassName := "transaction-amount " ++ host.toLowerCase transaction.transactionType
    amountSign := if transaction.transactionType = "WITHDRAWAL" then "-" else "+"
    amountText := [.string "$", .string (host.toFixed transaction.amount 2)]
    statusClassName := "transaction-status " ++ getStatusClass host transaction.status
    statusText := transaction.status
    dateText := formatDate host transaction.createdAt }

/-- What the component returns. -/
inductive HistoryView where
  | loading
  | error (text : String)
  | noTransactions
  | transactionList (items : List TransactionItem)

/-- The component body after the hooks: the two early returns, then the list.  The
`accountId` prop is read by `loadTransactions` only, not here. -/
def TransactionHistory (host : Host) (_accountId : JSValue) (st : HistoryState) : HistoryView :=
  if st.loading then .loading
  else
    match st.error with
    | some text =>
      if text ≠ "" then .error text
      else if st.transactions.length = 0 then .noTransactions
      else .transactionList (st.transactions.map (renderTransaction host))
    | none =>
      if st.transactions.length = 0 then .noTransactions
      else .transactionList (st.transactions.map (renderTransaction host))

/-- The transaction items contained in a view. -/
def HistoryView.items : HistoryView → List TransactionItem
  | .transactionList items => items
  | _ => []

/-! ## `components/AccountList.js` -/

/-- Source: `String.prototype.includes(searchString)`: `searchString` starts at some
position of the string. -/
def includes (s searchString : String) : Bool :=
  s.toList.tails.any fun rest => searchString.toList.isPrefixOf rest

/-- The callback of `accounts.filter` in `filteredAccounts`. -/
def matchesSearch (host : Host) (searchTerm : String) (account : Account) : Bool :=
  includes (host.toLowerCase account.accountNumber) (host.toLowerCase searchTerm) ||
  includes (host.toLowerCase account.accountHolderName) (host.toLowerCase searchTerm) ||
  includes (host.toLowerCase account.email) (host.toLowerCase searchTerm)

/-- Source: `filteredAccounts`. -/
def filteredAccounts (host : Host) (accounts : List Account) (searchTerm : String) :
    List Account :=
  accounts.filter (matchesSearch host searchTerm)

/-- Value of a string of decimal digits. -/
def digitsValue (digits : List Char) : Nat :=
  digits.foldl (fun acc c => 10 * acc + (c.toNat - 48)) 0

/-- Reading of the leading decimal digits of a string, `NaN` when there is none: what
`parseInt` and `parseFloat` return on strings made of digits, and on the empty string. -/
def parseDigits (s : String) : JSNumber :=
  match s.toList.takeWhile Char.isDigit with
  | [] => .nan
  | digits => .finite (digitsValue digits)

/-- Text of a number for the example host: the decimal numeral of a natural number and the
usual names of `NaN` and the infinities; values that no example uses give `"?"`. -/
def exampleNumberText (x : JSNumber) : String :=
  match x with
  | .nan => "NaN"
  | .infinity negative => if negative then "-Infinity" else "Infinity"
  | .finite q => if q.den = 1 then (if 0 ≤ q.num then Nat.repr q.num.toNat else "?") else "?"

/-- Fixed-point text of a number for the example host: for a natural number, its numeral
followed by a point and `digits` zeros (no point when `digits` is zero). -/
def exampleFixedText (x : JSNumber) (digits : Nat) : String :=
  match x with
  | .finite q =>
    if q.den = 1 ∧ 0 ≤ q.num ∧ 0 < digits then
      exampleNumberText x ++ "." ++ String.mk (List.replicate digits '0')
    else exampleNumberText x
  | _ => exampleNumberText x

/-- A host for evaluating examples: decimal reading of digit strings, ASCII lower-casing,
and the date string itself as its localized form. -/
def exampleHost : Host :=
  { parseInt := parseDigits
    parseFloat := parseDigits
    numberToString := exampleNumberText
    toFixed := exampleFixedText
    toLowerCase := fun s => String.mk (s.toList.map Char.toLower)
    toLocaleString := fun s => s
    undefinedReadMessage := "Cannot read properties of undefined (reading 'data')" }

/-! ## Inputs used in examples -/

/-- Inputs of the examples: a form filled in for a transfer of 30 from account 1 to 2. -/
def exampleForm : FormState :=
  { activeTab := "transfer"
    formData :=
      { fromAccountId := "1", toAccountId := "2", accountId := "", amount := "30",
        description := "" }
    loading := false
    message := none }

/-- An error whose response carries the given `message` field. -/
def exampleError (m : JSValue) : ErrorObj :=
  { message := .string "Request failed with status code 400"
    response := .object [("status", .number (.finite 400)),
      ("data", .object [("message", m)])] }

/-- Two stored transactions: a completed transfer from account 7 to account 8 and a
failed withdrawal from account 7. -/
def exampleTransactions : List Transaction :=
  [ { id := .number (.finite 1), transactionType := "TRANSFER"
      fromAccountId := .number (.finite 7), toAccountId := .number (.finite 8)
      amount := .finite 30, description := .string "Rent", status := "COMPLETED"
      createdAt := "2024-01-01T10:00:00" },
    { id := .number (.finite 2), transactionType := "WITHDRAWAL"
      fromAccountId := .number (.finite 7), toAccountId := .null
      amount := .finite 150, description := .null, status := "FAILED"
      createdAt := "2024-01-02T10:00:00" } ]

/-! ## The search of `AccountList`, in the words of its description -/

/-- The lower-cased field contains the lower-cased term as a contiguous run of characters. -/
def ContainsLowered (host : Host) (term field : String) : Prop :=
  (host.toLowerCase term).toList <:+: (host.toLowerCase field).toList

/-- An account matches a term when its number, holder name or email contains it,
both lower-cased. -/
def MatchesTerm (host : Host) (term : String) (account : Account) : Prop :=
  ContainsLowered host term account.accountNumber ∨
  ContainsLowered host term account.accountHolderName ∨
  ContainsLowered host term account.email

instance (host : Host) (term field : String) : Decidable (ContainsLowered host term field) :=
  inferInstanceAs (Decidable (_ <:+: _))

instance (host : Host) (term : String) (account : Account) :
    Decidable (MatchesTerm host term account) :=
  inferInstanceAs (Decidable (_ ∨ _ ∨ _))

/-- Three accounts for examples. -/
def exampleAccounts : List Account :=
  [ { id := .number (.finite 7), accountNumber := "ACC1001", accountHolderName := "Alice Smith"
      email := "alice@example.com", accountType := "CHECKING", balance := .finite 100 },
    { id := .number (.finite 8), accountNumber := "ACC1002", accountHolderName := "Bob Jones"
      email := "bob@example.com", accountType := "SAVINGS", balance := .finite 50 },
    { id := .number (.finite 9), accountNumber := "ACC1003", accountHolderName := "Carol Alison"
      email := "carol@example.com", accountType := "SAVINGS", balance := .finite 0 } ]

end Client

/-! # The ledger core

The server that answers the requests above is not among the JavaScript sources.  Its
ledger core is modelled here from its specification, for one caller at a time: amounts
and balances are integers counting hundredths (two fractional digits), the Account Store
is a list of accounts keyed by `id`, and the Transaction Log is a list that only grows. -/

namespace Ledger

/-- Modelled from the spec: the error taxonomy of the Ledger Engine (the engine itself is
absent from the sources). -/
inductive ErrorKind where
  | NotFound
  | InvalidAmount
  | InsufficientFunds
  | SameAccount
  | Conflict
  deriving DecidableEq, Repr

/-- Modelled from the spec: the `transactionType` of a Transaction record. -/
inductive TransactionType where
  | TRANSFER
  | DEPOSIT
  | WITHDRAWAL
  deriving DecidableEq, Repr

/-- Modelled from the spec: the `status` of a Transaction record. -/
inductive Status where
  | PENDING
  | COMPLETED
  | FAILED
  deriving DecidableEq, Repr

/-- Modelled from the spec: the Account record of the data model; `balance` counts
hundredths and is an integer so that its sign is a property to prove, not a typing fact. -/
structure Account where
  id : Nat
  accountNumber : String
  accountHolderName : String
  email : String
  accountType : String
  balance : Int
  deriving DecidableEq, Repr

/-- Modelled from the spec: the Transaction record of the data model; `amount` counts
hundredths and `createdAt` is a logical timestamp. -/
structure Transaction where
  id : Nat
  transactionType : TransactionType
  fromAccountId : Option Nat
  toAccountId : Option Nat
  amount : Int
  description : String
  status : Status
  createdAt : Nat
  deriving DecidableEq, Repr

/-- Modelled from the spec: Account Store `get(accountId)`, which fails with NotFound if
the account is absent. -/
def get (accounts : List Account) (accountId : Nat) : Except ErrorKind Account :=
  match accounts.find? (fun account => account.id = accountId) with
  | some account => .ok account
  | none => .error .NotFound

/-- Modelled from the spec: the write half of `atomicAdjust`, `balance += delta` on the
account stored under the id. -/
def addToBalance (accountId : Nat) (delta : Int) : List Account → List Account
  | [] => []
  | account :: rest =>
    if account.id = accountId then { account with balance := account.balance + delta } :: rest
    else account :: addToBalance accountId delta rest

/-- Modelled from the spec: Account Store `atomicAdjust(accountId, delta) -> newBalance`,
which applies `balance += delta` only if the resulting balance would be at least zero and
fails with InsufficientFunds otherwise. -/
def atomicAdjust (accounts : List Account) (accountId : Nat) (delta : Int) :
    Except ErrorKind (List Account × Int) :=
  match get accounts accountId with
  | .error e => .error e
  | .ok account =>
    if 0 ≤ account.balance + delta then
      .ok (addToBalance accountId delta accounts, account.balance + delta)
    else
      .error .InsufficientFunds

/-- Modelled from the spec: Account Store `atomicAdjustMany`, which applies a list of
adjustments as a single all-or-nothing unit: it returns the store with every adjustment
applied, or fails with InsufficientFunds or NotFound and returns no store at all. -/
def atomicAdjustMany (accounts : List Account) :
    List (Nat × Int) → Except ErrorKind (List Account)
  | [] => .ok accounts
  | (accountId, delta) :: rest =>
    match atomicAdjust accounts accountId delta with
    | .error e => .error e
    | .ok (adjusted, _) => atomicAdjustMany adjusted rest

/-- Modelled from the spec: the state the ledger core owns, namely the Account Store, the
Transaction Log, the next transaction id and the logical clock. -/
structure State where
  accounts : List Account
  log : List Transaction
  nextId : Nat
  clock : Nat
  deriving DecidableEq, Repr

/-- Modelled from the spec: what an operation of the Ledger Engine yields: the state it
leaves, the Transaction it recorded (none when the request was rejected before a
Transaction was created) and the error it surfaced, if any. -/
structure Result where
  state : State
  transaction : Option Transaction
  error : Option ErrorKind
  deriving DecidableEq, Repr

/-- Modelled from the spec: rejection before a Transaction is created (NotFound,
InvalidAmount, SameAccount); nothing is mutated and nothing is logged. -/
def reject (s : State) (e : ErrorKind) : Result :=
  { state := s, transaction := none, error := some e }

/-- Modelled from the spec: the commit of an operation, which installs the accounts and
does the Transaction Log `append(transaction)` as one step. -/
def commit (s : State) (accounts : List Account) (t : Transaction) : State :=
  { accounts := accounts, log := s.log ++ [t], nextId := s.nextId + 1, clock := s.clock + 1 }

/-- Modelled from the spec: the end of an operation whose Transaction was created as
`pending`: COMPLETED with the adjusted accounts when the Account Store accepted the
adjustment, FAILED with the accounts untouched and the error surfaced when it did not. -/
def settle (s : State) (pending : Transaction) (adjusted : Except ErrorKind (List Account)) :
    Result :=
  match adjusted with
  | .ok accounts =>
    let t := { pending with status := .COMPLETED }
    { state := commit s accounts t, transaction := some t, error := none }
  | .error e =>
    let t := { pending with status := .FAILED }
    { state := commit s s.accounts t, transaction := some t, error := some e }

/-- Modelled from the spec: Ledger Engine `deposit(accountId, amount, description)`. -/
def deposit (s : State) (accountId : Nat) (amount : Int) (description : String) : Result :=
  if amount ≤ 0 then reject s .InvalidAmount
  else
    match get s.accounts accountId with
    | .error e => reject s e
    | .ok _ =>
      settle s
        { id := s.nextId, transactionType := .DEPOSIT, fromAccountId := none
          toAccountId := some accountId, amount := amount, description := description
          status := .PENDING, createdAt := s.clock }
        ((atomicAdjust s.accounts accountId amount).map Prod.fst)

/-- Modelled from the spec: Ledger Engine `withdraw(accountId, amount, description)`. -/
def withdraw (s : State) (accountId : Nat) (amount : Int) (description : String) : Result :=
  if amount ≤ 0 then reject s .InvalidAmount
  else
    match get s.accounts accountId with
    | .error e => reject s e
    | .ok _ =>
      settle s
        { id := s.nextId, transactionType := .WITHDRAWAL, fromAccountId := some accountId
          toAccountId := none, amount := amount, description := description
          status := .PENDING, createdAt := s.clock }
        ((atomicAdjust s.accounts accountId (-amount)).map Prod.fst)

/-- Modelled from the spec: Ledger Engine
`transfer(fromAccountId, toAccountId, amount, description)`. -/
def transfer (s : State) (fromAccountId toAccountId : Nat) (amount : Int)
    (description : String) : Result :=
  if amount ≤ 0 then reject s .InvalidAmount
  else if fromAccountId = toAccountId then reject s .SameAccount
  else
    match get s.accounts fromAccountId, get s.accounts toAccountId with
    | .error e, _ => reject s e
    | _, .error e => reject s e
    | .ok _, .ok _ =>
      settle s
        { id := s.nextId, transactionType := .TRANSFER, fromAccountId := some fromAccountId
          toAccountId := some toAccountId, amount := amount, description := description
          status := .PENDING, createdAt := s.clock }
        (atomicAdjustMany s.accounts [(fromAccountId, -amount), (toAccountId, amount)])

/-- Modelled from the spec: a request to the Ledger Engine. -/
inductive Operation where
  | deposit (accountId : Nat) (amount : Int) (description : String)
  | withdraw (accountId : Nat) (amount : Int) (description : String)
  | transfer (fromAccountId toAccountId : Nat) (amount : Int) (description : String)
  deriving DecidableEq, Repr

/-- Modelled from the spec: the Ledger Engine serving one request. -/
def serve (s : State) : Operation → Result
  | .deposit accountId amount description => deposit s accountId amount description
  | .withdraw accountId amount description => withdraw s accountId amount description
  | .transfer fromAccountId toAccountId amount description =>
    transfer s fromAccountId toAccountId amount description

/-- Modelled from the spec: the Ledger Engine serving a sequence of requests in order. -/
def run (s : State) : List Operation → State
  | [] => s
  | op :: rest => run (serve s op).state rest

/-- The balance stored for an account id, if the account exists. -/
def balanceOf (accounts : List Account) (accountId : Nat) : Option Int :=
  (accounts.find? (fun account => account.id = accountId)).map (fun account => account.balance)

/-- The signed amount a Transaction contributes to an account: its amount when it is
COMPLETED and credits the account, minus its amount when it is COMPLETED and debits the
account, zero for a Transaction that is not COMPLETED or does not reference the account. -/
def signedAmount (accountId : Nat) (t : Transaction) : Int :=
  if t.status = .COMPLETED then
    (if t.toAccountId = some accountId then t.amount else 0) -
      (if t.fromAccountId = some accountId then t.amount else 0)
  else 0

/-- The example of the specification: account 1 (A) holds 100.00, account 2 (B) holds 50.00. -/
def exampleState : State :=
  { accounts :=
      [ { id := 1, accountNumber := "ACC1001", accountHolderName := "A", email := "a@example.com"
          accountType := "CHECKING", balance := 10000 },
        { id := 2, accountNumber := "ACC1002", accountHolderName := "B", email := "b@example.com"
          accountType := "SAVINGS", balance := 5000 } ]
    log := []
    nextId := 1
    clock := 0 }

/-- Requests for examples: a deposit to A, a withdrawal from B beyond its balance, a transfer
from B to A, a transfer from A to itself, and a withdrawal of all that A then holds. -/
def exampleOperations : List Operation :=
  [ .deposit 1 500 "salary", .withdraw 2 6000 "rent", .transfer 2 1 5000 "gift",
    .transfer 1 1 5 "self", .withdraw 1 15500 "car" ]

end Ledger

/-! # Theorems about the client -/

namespace Client

/-- C1: `transactionService.transfer(f, t, a, d)` adds exactly one request to those made
so far and settles as the remote side answers it; the request is a POST to
`/transactions/transfer` whose data is an object with exactly the four fields
`fromAccountId`, `toAccountId`, `amount`, `description`, holding `f`, `t`, `a`, `d`
unchanged. -/
theorem transfer_issues_one_post {α : Type} (f t a d : JSValue)
    (remote : Request → Outcome α) (log : List Request) :
    ∃ (r : Request) (fields : List (String × JSValue)),
      transactionService.transfer f t a d remote log = (remote r, log ++ [r]) ∧
      r.method = .POST ∧ r.url = "/transactions/transfer" ∧
      r.data = some (.object fields) ∧
      fields.map Prod.fst = ["fromAccountId", "toAccountId", "amount", "description"] ∧
      JSValue.lookup "fromAccountId" fields = f ∧
      JSValue.lookup "toAccountId" fields = t ∧
      JSValue.lookup "amount" fields = a ∧
      JSValue.lookup "description" fields = d :=
  ⟨{ method := .POST, url := "/transactions/transfer",
     data := some (.object [("fromAccountId", f), ("toAccountId", t),
       ("amount", a), ("description", d)]) },
   [("fromAccountId", f), ("toAccountId", t), ("amount", a), ("description", d)],
   rfl, rfl, rfl, rfl, rfl, rfl, rfl, rfl, rfl⟩

/-- C2: `deposit(i, a, d)` and `withdraw(i, a, d)` each add exactly one request, a POST to
`/transactions/deposit` and to `/transactions/withdraw` respectively; both carry the same
data, an object with exactly the three fields `accountId`, `amount`, `description` holding
`i`, `a`, `d` unchanged, so the two requests differ in their path and in nothing else. -/
theorem deposit_withdraw_requests {α : Type} (i a d : JSValue)
    (remote : Request → Outcome α) (log : List Request) :
    ∃ (rd rwd : Request) (fields : List (String × JSValue)),
      transactionService.deposit i a d remote log = (remote rd, log ++ [rd]) ∧
      transactionService.withdraw i a d remote log = (remote rwd, log ++ [rwd]) ∧
      rd = { method := .POST, url := "/transactions/deposit", data := some (.object fields) } ∧
      rwd = { method := .POST, url := "/transactions/withdraw", data := some (.object fields) } ∧
      rd.url ≠ rwd.url ∧
      fields.map Prod.fst = ["accountId", "amount", "description"] ∧
      JSValue.lookup "accountId" fields = i ∧
      JSValue.lookup "amount" fields = a ∧
      JSValue.lookup "description" fields = d :=
  ⟨{ method := .POST, url := "/transactions/deposit",
     data := some (.object [("accountId", i), ("amount", a), ("description", d)]) },
   { method := .POST, url := "/transactions/withdraw",
     data := some (.object [("accountId", i), ("amount", a), ("description", d)]) },
   [("accountId", i), ("amount", a), ("description", d)],
   rfl, rfl, rfl, rfl, by simp, rfl, rfl, rfl, rfl⟩

/-- C3, as stated, fails: a submission rejected with an error whose response carries the
message field `''` leaves the message state with the text
`'Transaction failed: Request failed with status code 400'`, not with `''`. -/
theorem handleSubmit_empty_message_replaced :
    ((exampleError (.string "")).response.optChain "data").optChain "message" = .string "" ∧
    (handleSubmit exampleHost (fun _ => .rejected (exampleError (.string "")))
        exampleForm).state.message =
      some { type := "error"
             text := .string "Transaction failed: Request failed with status code 400" } ∧
    (handleSubmit exampleHost (fun _ => .rejected (exampleError (.string "")))
        exampleForm).state.message ≠
      some { type := "error", text := .string "" } := by
  refine ⟨rfl, rfl, ?_⟩
  have h : (handleSubmit exampleHost (fun _ => .rejected (exampleError (.string "")))
        exampleForm).state.message =
      some { type := "error"
             text := .string "Transaction failed: Request failed with status code 400" } := rfl
  rw [h]
  simp

/-- C3, amended: when the call made by `handleSubmit` is rejected with an error whose
response carries the message field `m`, the message state becomes
`{type: 'error', text: m}` with `m` unchanged provided `m` is truthy (for a string: not
empty); when `m` is falsy the text is `'Transaction failed: '` followed by the error's
own `message`. -/
theorem handleSubmit_error_message (host : Host) (remote : Request → Outcome Transaction)
    (st : FormState) (call : Call Transaction) (err : ErrorObj) (m : JSValue)
    (hcall : handleSubmitCall host st.activeTab st.formData = some call)
    (hrej : (call remote []).1 = .rejected err)
    (hm : (err.response.optChain "data").optChain "message" = m) :
    (m.truthy = true →
      (handleSubmit host remote st).state.message = some { type := "error", text := m }) ∧
    (m.truthy = false →
      (handleSubmit host remote st).state.message =
        some { type := "error"
               text := .string ("Transaction failed: " ++
                 err.message.toStr host.numberToString) }) := by
  have hmsg : (handleSubmit host remote st).state.message =
      some (handleSubmitCatch host err) := by
    unfold handleSubmit
    rw [hcall]
    rcases hres : call remote [] with ⟨outcome, log⟩
    rw [hres] at hrej
    simp only at hrej
    subst hrej
    simp only [hres]
  rw [hmsg]
  constructor
  · intro ht
    simp [handleSubmitCatch, hm, JSValue.or, ht]
  · intro hf
    simp [handleSubmitCatch, hm, JSValue.or, hf]

/-- Witness for C3: the example form, rejected with the message `'Insufficient funds'`. -/
theorem handleSubmit_error_message_witness :
    (handleSubmit exampleHost (fun _ => .rejected (exampleError (.string "Insufficient funds")))
        exampleForm).state.message =
      some { type := "error", text := .string "Insufficient funds" } :=
  (handleSubmit_error_message exampleHost
    (fun _ => .rejected (exampleError (.string "Insufficient funds"))) exampleForm
    (transactionService.transfer (.number (.finite 1)) (.number (.finite 2))
      (.number (.finite 30)) (.string "Transfer"))
    (exampleError (.string "Insufficient funds")) (.string "Insufficient funds")
    rfl rfl rfl).1 (by decide)

/-- The by-account path is never the path of the full listing. -/
theorem byAccount_url_ne (id : String) : "/transactions/account/" ++ id ≠ "/transactions" := by
  intro h
  have hlen := congrArg String.length h
  rw [String.length_append] at hlen
  have h1 : ("/transactions/account/" : String).length = 22 := by decide
  have h2 : ("/transactions" : String).length = 13 := by decide
  omega

/-- The requests made by `loadTransactions` are those of the call it selects. -/
theorem loadTransactions_requests (host : Host) (accountId : JSValue)
    (remote : Request → Outcome (List Transaction)) (st : HistoryState) :
    (loadTransactions host accountId remote st).requests =
      (loadTransactionsCall host accountId remote []).2 := by
  unfold loadTransactions
  rcases hres : loadTransactionsCall host accountId remote [] with ⟨outcome, log⟩
  cases outcome <;> simp only [hres]

/-- C4, as stated, fails: with the account id `0` supplied as the `accountId` prop,
`loadTransactions` makes the single request GET `/transactions`; no request goes to
`/transactions/account/0`, the by-account path of that id. -/
theorem loadTransactions_zero_id_requests_all :
    (loadTransactions exampleHost (.number (.finite 0)) (fun _ => .resolved [])
        HistoryState.initial).requests =
      [{ method := .GET, url := "/transactions", data := none }] ∧
    ("/transactions/account/" ++
        (JSValue.number (.finite 0)).toStr exampleHost.numberToString : String) =
      "/transactions/account/0" ∧
    (∃ r ∈ (loadTransactions exampleHost (.number (.finite 0)) (fun _ => .resolved [])
        HistoryState.initial).requests, r.url = "/transactions") ∧
    ∀ r ∈ (loadTransactions exampleHost (.number (.finite 0)) (fun _ => .resolved [])
        HistoryState.initial).requests, r.url ≠ "/transactions/account/0" := by
  have hreq : (loadTransactions exampleHost (.number (.finite 0)) (fun _ => .resolved [])
        HistoryState.initial).requests =
      [{ method := .GET, url := "/transactions", data := none }] := rfl
  rw [hreq]
  refine ⟨rfl, by decide, ⟨_, List.mem_singleton.mpr rfl, rfl⟩, fun r hr => ?_⟩
  rw [List.mem_singleton] at hr
  subst hr
  decide

/-- C4, amended: for every truthy `accountId` prop (any number other than `0` and `NaN`, any
non-empty string) `loadTransactions` makes exactly one request, GET
`/transactions/account/{accountId}`, and none to `/transactions`; for a falsy `accountId`
(the prop not supplied, hence `undefined`, but also `0`) it makes exactly one request, GET
`/transactions`, and no by-account request. -/
theorem loadTransactions_request (host : Host) (accountId : JSValue)
    (remote : Request → Outcome (List Transaction)) (st : HistoryState) :
    (accountId.truthy = true →
      (loadTransactions host accountId remote st).requests =
        [{ method := .GET
           url := "/transactions/account/" ++ accountId.toStr host.numberToString
           data := none }] ∧
      ∀ r ∈ (loadTransactions host accountId remote st).requests, r.url ≠ "/transactions") ∧
    (accountId.truthy = false →
      (loadTransactions host accountId remote st).requests =
        [{ method := .GET, url := "/transactions", data := none }] ∧
      ∀ r ∈ (loadTransactions host accountId remote st).requests,
        ∀ id : String, r.url ≠ "/transactions/account/" ++ id) ∧
    JSValue.undefined.truthy = false := by
  rw [loadTransactions_requests]
  refine ⟨fun ht => ?_, fun hf => ?_, rfl⟩
  · have hreq : (loadTransactionsCall host accountId remote []).2 =
        [{ method := .GET
           url := "/transactions/account/" ++ accountId.toStr host.numberToString
           data := none }] := by
      simp [loadTransactionsCall, ht, transactionService.getTransactionsByAccountId, api.get]
    rw [hreq]
    refine ⟨rfl, fun r hr => ?_⟩
    rw [List.mem_singleton] at hr
    subst hr
    exact byAccount_url_ne _
  · have hreq : (loadTransactionsCall host accountId remote []).2 =
        [{ method := .GET, url := "/transactions", data := none }] := by
      simp [loadTransactionsCall, hf, transactionService.getAllTransactions, api.get]
    rw [hreq]
    refine ⟨rfl, fun r hr id => ?_⟩
    rw [List.mem_singleton] at hr
    subst hr
    exact fun h => byAccount_url_ne id h.symm

/-- Witness for C4: the account id `7`. -/
theorem loadTransactions_request_witness :
    (loadTransactions exampleHost (.number (.finite 7)) (fun _ => .resolved [])
        HistoryState.initial).requests =
      [{ method := .GET, url := "/transactions/account/7", data := none }] :=
  ((loadTransactions_request exampleHost (.number (.finite 7)) (fun _ => .resolved [])
    HistoryState.initial).1 (by decide)).1

/-- The requests made by `handleSubmit` are those of the call it selects, if any. -/
theorem handleSubmit_requests (host : Host) (remote : Request → Outcome Transaction)
    (st : FormState) :
    (handleSubmit host remote st).requests =
      match handleSubmitCall host st.activeTab st.formData with
      | some call => (call remote []).2
      | none => [] := by
  unfold handleSubmit
  cases handleSubmitCall host st.activeTab st.formData with
  | none => rfl
  | some call =>
    rcases hres : call remote [] with ⟨outcome, log⟩
    cases outcome <;> simp only [hres]

/-- The description sent by `handleSubmit`: the entered one, or the default when it is empty. -/
theorem description_or_default (description fallback : String) :
    (JSValue.string description).or (.string fallback) =
      .string (if description = "" then fallback else description) := by
  by_cases h : description = "" <;> simp [JSValue.or, JSValue.truthy, h]

/-- C8: for every form data and each of the tabs `transfer`, `deposit`, `withdraw`,
`handleSubmit` makes exactly one request, the one of the operation named by the tab:
`transfer` with `parseInt(fromAccountId)`, `parseInt(toAccountId)`, `deposit` and
`withdraw` with `parseInt(accountId)`, all with `parseFloat(amount)` and with the entered
description, or `'Transfer'`, `'Deposit'`, `'Withdrawal'` when it is empty; the description
sent is never the empty string. -/
theorem handleSubmit_calls_active_tab (host : Host) (remote : Request → Outcome Transaction)
    (fd : FormData) (loading : Bool) (message : Option Message) :
    (handleSubmit host remote
        { activeTab := "transfer", formData := fd, loading := loading,
          message := message }).requests =
      [{ method := .POST, url := "/transactions/transfer",
         data := some (.object
          [("fromAccountId", .number (host.parseInt fd.fromAccountId)),
           ("toAccountId", .number (host.parseInt fd.toAccountId)),
           ("amount", .number (host.parseFloat fd.amount)),
           ("description",
             .string (if fd.description = "" then "Transfer" else fd.description))]) }] ∧
    (handleSubmit host remote
        { activeTab := "deposit", formData := fd, loading := loading,
          message := message }).requests =
      [{ method := .POST, url := "/transactions/deposit",
         data := some (.object
          [("accountId", .number (host.parseInt fd.accountId)),
           ("amount", .number (host.parseFloat fd.amount)),
           ("description",
             .string (if fd.description = "" then "Deposit" else fd.description))]) }] ∧
    (handleSubmit host remote
        { activeTab := "withdraw", formData := fd, loading := loading,
          message := message }).requests =
      [{ method := .POST, url := "/transactions/withdraw",
         data := some (.object
          [("accountId", .number (host.parseInt fd.accountId)),
           ("amount", .number (host.parseFloat fd.amount)),
           ("description",
             .string (if fd.description = "" then "Withdrawal" else fd.description))]) }] ∧
    (if fd.description = "" then "Transfer" else fd.description) ≠ "" ∧
    (if fd.description = "" then "Deposit" else fd.description) ≠ "" ∧
    (if fd.description = "" then "Withdrawal" else fd.description) ≠ "" := by
  refine ⟨?_, ?_, ?_, ?_, ?_, ?_⟩
  · rw [handleSubmit_requests]
    simp [handleSubmitCall, description_or_default, transactionService.transfer, api.post]
  · rw [handleSubmit_requests]
    simp [handleSubmitCall, description_or_default, transactionService.deposit, api.post]
  · rw [handleSubmit_requests]
    simp [handleSubmitCall, description_or_default, transactionService.withdraw, api.post]
  · by_cases h : fd.description = "" <;> simp [h]
  · by_cases h : fd.description = "" <;> simp [h]
  · by_cases h : fd.description = "" <;> simp [h]

/-- The items of a view that is not loading and shows no error are the images of the
stored transactions, in order. -/
theorem TransactionHistory_items (host : Host) (accountId : JSValue)
    (ts : List Transaction) :
    (TransactionHistory host accountId
        { transactions := ts, loading := false, error := none }).items =
      ts.map (renderTransaction host) := by
  cases ts with
  | nil => rfl
  | cons t rest => simp [TransactionHistory, HistoryView.items]

/-- C5: when the call of `loadTransactions` is fulfilled with the list `ts`, the component
shows one item per transaction of `ts`, in the order of `ts` (the items are the images of
the transactions under the per-transaction rendering, so their keys are the ids of `ts` in
order); the status text of each item is the transaction's `status` unchanged, and the
class name next to it is `transaction-status` followed by the lower-cased status. -/
theorem history_renders_each_transaction (host : Host) (accountId : JSValue)
    (remote : Request → Outcome (List Transaction)) (st : HistoryState)
    (ts : List Transaction)
    (hres : (loadTransactionsCall host accountId remote []).1 = .resolved ts) :
    (TransactionHistory host accountId (loadTransactions host accountId remote st).state).items =
        ts.map (renderTransaction host) ∧
    (TransactionHistory host accountId
        (loadTransactions host accountId remote st).state).items.length = ts.length ∧
    (TransactionHistory host accountId
        (loadTransactions host accountId remote st).state).items.map (fun item => item.key) =
        ts.map (fun t => t.id) ∧
    (TransactionHistory host accountId
        (loadTransactions host accountId remote st).state).items.map
          (fun item => item.statusText) = ts.map (fun t => t.status) ∧
    (TransactionHistory host accountId
        (loadTransactions host accountId remote st).state).items.map
          (fun item => item.statusClassName) =
        ts.map (fun t => "transaction-status " ++ host.toLowerCase t.status) := by
  have hstate : (loadTransactions host accountId remote st).state =
      { transactions := ts, loading := false, error := none } := by
    unfold loadTransactions
    rcases hcall : loadTransactionsCall host accountId remote [] with ⟨outcome, log⟩
    rw [hcall] at hres
    simp only at hres
    subst hres
    simp only [hcall]
  rw [hstate, TransactionHistory_items]
  refine ⟨rfl, by simp, ?_, ?_, ?_⟩ <;>
    simp [List.map_map, Function.comp_def, renderTransaction, getStatusClass]

/-- Witness for C5: the two example transactions, returned for the history of account 7. -/
theorem history_renders_each_transaction_witness :
    (TransactionHistory exampleHost (.number (.finite 7))
        (loadTransactions exampleHost (.number (.finite 7))
          (fun _ => .resolved exampleTransactions) HistoryState.initial).state).items.map
          (fun item => (item.statusText, item.statusClassName)) =
      [("COMPLETED", "transaction-status completed"), ("FAILED", "transaction-status failed")] := by
  have h := (history_renders_each_transaction exampleHost (.number (.finite 7))
    (fun _ => .resolved exampleTransactions) HistoryState.initial exampleTransactions rfl).1
  rw [h]
  decide

/-- The items of any view: none while loading or while a non-empty error is shown,
otherwise the images of the stored transactions, in order. -/
theorem TransactionHistory_items_of_state (host : Host) (accountId : JSValue)
    (st : HistoryState) :
    (TransactionHistory host accountId st).items =
      if st.loading = true ∨ (st.error ≠ none ∧ st.error ≠ some "") then []
      else st.transactions.map (renderTransaction host) := by
  rcases st with ⟨transactions, loading, error⟩
  cases loading with
  | true => simp [TransactionHistory, HistoryView.items]
  | false =>
    cases error with
    | none =>
      cases transactions with
      | nil => simp [TransactionHistory, HistoryView.items]
      | cons t rest => simp [TransactionHistory, HistoryView.items]
    | some text =>
      by_cases htext : text = ""
      · cases transactions with
        | nil => simp [TransactionHistory, HistoryView.items, htext]
        | cons t rest => simp [TransactionHistory, HistoryView.items, htext]
      · simp [TransactionHistory, HistoryView.items, htext]

/-- The state left by `loadTransactions` when the remote side answers with a list. -/
theorem loadTransactions_resolved_state (host : Host) (accountId : JSValue)
    (ts : List Transaction) (st : HistoryState) :
    (loadTransactions host accountId (fun _ => .resolved ts) st).state =
      { transactions := ts, loading := false, error := none } := by
  by_cases h : accountId.truthy = true <;>
    simp [loadTransactions, loadTransactionsCall, h,
      transactionService.getTransactionsByAccountId, transactionService.getAllTransactions,
      api.get]

/-- C9: in every state of `TransactionHistory` and for every `accountId` prop, the items
shown pair the id of each stored transaction, in order, with the sign `-` when its
`transactionType` is exactly `'WITHDRAWAL'` and `+` otherwise (while loading, or while an
error is shown, no transaction is rendered); the view is the same for any other
`accountId` prop; and in the history loaded for an account, whatever else the list holds,
a TRANSFER whose `fromAccountId` is that account is shown with `+`. -/
theorem amount_sign_ignores_account (host : Host) (accountId other : JSValue)
    (st : HistoryState) (before after : List Transaction) (t : Transaction) :
    (TransactionHistory host accountId st).items.map
        (fun item => (item.key, item.amountSign)) =
      (if st.loading = true ∨ (st.error ≠ none ∧ st.error ≠ some "") then []
       else st.transactions.map
        (fun t => (t.id, if t.transactionType = "WITHDRAWAL" then "-" else "+"))) ∧
    ("-" : String) ≠ "+" ∧
    TransactionHistory host accountId st = TransactionHistory host other st ∧
    (TransactionHistory host accountId
        (loadTransactions host accountId
          (fun _ => .resolved
            (before ++ [{ t with transactionType := "TRANSFER", fromAccountId := accountId }]
              ++ after)) st).state).items.map (fun item => item.amountSign) =
      before.map (fun t => if t.transactionType = "WITHDRAWAL" then "-" else "+") ++ ["+"] ++
        after.map (fun t => if t.transactionType = "WITHDRAWAL" then "-" else "+") := by
  refine ⟨?_, by decide, rfl, ?_⟩
  · rw [TransactionHistory_items_of_state]
    by_cases hshown : st.loading = true ∨ (st.error ≠ none ∧ st.error ≠ some "")
    · rw [if_pos hshown, if_pos hshown]
      rfl
    · rw [if_neg hshown, if_neg hshown, List.map_map]
      rfl
  · rw [loadTransactions_resolved_state, TransactionHistory_items, List.map_map]
    simp [List.map_append, Function.comp_def, renderTransaction]

/-- The test `includes` decides containment as a contiguous run. -/
theorem includes_iff (s searchString : String) :
    includes s searchString = true ↔ searchString.toList <:+: s.toList := by
  unfold includes
  rw [List.any_eq_true, List.infix_iff_prefix_suffix]
  constructor
  · rintro ⟨rest, hmem, hpre⟩
    exact ⟨rest, List.isPrefixOf_iff_prefix.mp hpre, (List.mem_tails _ _).mp hmem⟩
  · rintro ⟨rest, hpre, hsuf⟩
    exact ⟨rest, (List.mem_tails _ _).mpr hsuf, List.isPrefixOf_iff_prefix.mpr hpre⟩

/-- The filter callback decides `MatchesTerm`. -/
theorem matchesSearch_iff (host : Host) (term : String) (account : Account) :
    matchesSearch host term account = true ↔ MatchesTerm host term account := by
  simp [matchesSearch, MatchesTerm, ContainsLowered, includes_iff, or_assoc]

/-- C10: `filteredAccounts` keeps, in their order and with their multiplicity, exactly the
accounts whose number, holder name or email contains the search term, both lower-cased: it
is a sublist of the accounts with the matching accounts as members; for the empty search
term (which lower-cases to itself) it is the whole list; filtering the result again with the
same term changes nothing. -/
theorem filteredAccounts_spec (host : Host) (accounts : List Account) (searchTerm : String)
    (hempty : host.toLowerCase "" = "") :
    filteredAccounts host accounts searchTerm =
        accounts.filter (fun account => decide (MatchesTerm host searchTerm account)) ∧
    (filteredAccounts host accounts searchTerm).Sublist accounts ∧
    (∀ account, account ∈ filteredAccounts host accounts searchTerm ↔
        account ∈ accounts ∧ MatchesTerm host searchTerm account) ∧
    filteredAccounts host accounts "" = accounts ∧
    filteredAccounts host (filteredAccounts host accounts searchTerm) searchTerm =
        filteredAccounts host accounts searchTerm := by
  refine ⟨?_, List.filter_sublist _, ?_, ?_, ?_⟩
  · unfold filteredAccounts
    congr 1
    funext account
    rw [Bool.eq_iff_iff, matchesSearch_iff]
    simp
  · intro account
    simp [filteredAccounts, List.mem_filter, matchesSearch_iff]
  · unfold filteredAccounts
    apply List.filter_eq_self.mpr
    intro account _
    rw [matchesSearch_iff]
    left
    unfold ContainsLowered
    rw [hempty]
    exact List.nil_infix
  · simp [filteredAccounts, List.filter_filter]

/-- Witness for C10: searching the example accounts for `ALI` keeps the first and the
third, in this order. -/
theorem filteredAccounts_spec_witness :
    exampleHost.toLowerCase "" = "" ∧
    (filteredAccounts exampleHost exampleAccounts "ALI").map (fun account => account.accountNumber) =
      ["ACC1001", "ACC1003"] ∧
    filteredAccounts exampleHost exampleAccounts "" = exampleAccounts :=
  ⟨rfl, by decide, (filteredAccounts_spec exampleHost exampleAccounts "ALI" rfl).2.2.2.1⟩

end Client

/-! # Theorems about the ledger core -/

namespace Ledger

/-- Reading a balance after `addToBalance`: only the adjusted id sees the delta. -/
theorem balanceOf_addToBalance (accountId : Nat) (delta : Int) (accounts : List Account)
    (a : Nat) :
    balanceOf (addToBalance accountId delta accounts) a =
      (balanceOf accounts a).map (fun b => if a = accountId then b + delta else b) := by
  induction accounts with
  | nil => rfl
  | cons account rest ih =>
    unfold balanceOf at ih ⊢
    by_cases hid : account.id = accountId
    · by_cases ha : account.id = a
      · have haa : a = accountId := by omega
        simp [addToBalance, hid, List.find?_cons, haa]
      · have haa : ¬ a = accountId := by omega
        have hacc : ¬ accountId = a := by omega
        simp [addToBalance, hid, List.find?_cons, hacc]
        cases hfind : List.find? (fun account => decide (account.id = a)) rest with
        | none => simp
        | some found => simp [haa]
    · by_cases ha : account.id = a
      · have haa : ¬ a = accountId := by omega
        simp [addToBalance, hid, List.find?_cons, ha, haa]
      · simp only [addToBalance, hid, if_false, List.find?_cons, ha, decide_False]
        exact ih

/-- What a successful `atomicAdjust` did. -/
theorem atomicAdjust_ok (accounts adjusted : List Account) (accountId : Nat) (delta newBalance : Int)
    (h : atomicAdjust accounts accountId delta = .ok (adjusted, newBalance)) :
    adjusted = addToBalance accountId delta accounts ∧
    ∃ account, get accounts accountId = .ok account ∧ 0 ≤ account.balance + delta ∧
      newBalance = account.balance + delta := by
  unfold atomicAdjust at h
  cases hget : get accounts accountId with
  | error e => rw [hget] at h; simp at h
  | ok account =>
    rw [hget] at h
    by_cases hok : 0 ≤ account.balance + delta
    · simp [hok] at h
      exact ⟨h.1.symm, account, rfl, hok, h.2.symm⟩
    · simp [hok] at h

/-- Non-negative balances survive an adjustment that the store accepts. -/
theorem addToBalance_nonneg (accountId : Nat) (delta : Int) (accounts : List Account)
    (account : Account) (hget : get accounts accountId = .ok account)
    (hok : 0 ≤ account.balance + delta)
    (hnonneg : ∀ x ∈ accounts, 0 ≤ x.balance) :
    ∀ x ∈ addToBalance accountId delta accounts, 0 ≤ x.balance := by
  induction accounts with
  | nil => intro x hx; simp [addToBalance] at hx
  | cons first rest ih =>
    intro x hx
    by_cases hid : first.id = accountId
    · have hfirst : account = first := by
        simp [get, List.find?_cons, hid] at hget
        exact hget.symm
      subst hfirst
      simp only [addToBalance, hid, if_true, List.mem_cons] at hx
      rcases hx with hx | hx
      · subst hx; exact hok
      · exact hnonneg x (List.mem_cons_of_mem _ hx)
    · simp only [addToBalance, hid, if_false, List.mem_cons] at hx
      rcases hx with hx | hx
      · subst hx; exact hnonneg _ (List.mem_cons_self _ _)
      · have hget' : get rest accountId = .ok account := by
          simpa [get, List.find?_cons, hid] using hget
        exact ih hget' (fun y hy => hnonneg y (List.mem_cons_of_mem _ hy)) x hx

/-- A rejected request leaves the state as it was. -/
theorem reject_step (s : State) (e : ErrorKind) :
    ∃ new : List Transaction, (reject s e).state.log = s.log ++ new ∧
      (∀ a, balanceOf (reject s e).state.accounts a =
        (balanceOf s.accounts a).map (fun b => b + (new.map (signedAmount a)).sum)) ∧
      ((∀ x ∈ s.accounts, 0 ≤ x.balance) → ∀ x ∈ (reject s e).state.accounts, 0 ≤ x.balance) :=
  ⟨[], by simp [reject], fun a => by simp [reject], fun h => h⟩

/-- A settled request appends one Transaction whose signed amount accounts for the change
of every balance, provided the adjustment it attempted does so. -/
theorem settle_step (s : State) (pending : Transaction)
    (adjusted : Except ErrorKind (List Account))
    (hbal : ∀ accounts, adjusted = .ok accounts → ∀ a, balanceOf accounts a =
      (balanceOf s.accounts a).map
        (fun b => b + signedAmount a { pending with status := .COMPLETED }))
    (hnn : ∀ accounts, adjusted = .ok accounts → (∀ x ∈ s.accounts, 0 ≤ x.balance) →
      ∀ x ∈ accounts, 0 ≤ x.balance) :
    ∃ new : List Transaction, (settle s pending adjusted).state.log = s.log ++ new ∧
      (∀ a, balanceOf (settle s pending adjusted).state.accounts a =
        (balanceOf s.accounts a).map (fun b => b + (new.map (signedAmount a)).sum)) ∧
      ((∀ x ∈ s.accounts, 0 ≤ x.balance) →
        ∀ x ∈ (settle s pending adjusted).state.accounts, 0 ≤ x.balance) := by
  cases adjusted with
  | ok accounts =>
    refine ⟨[{ pending with status := .COMPLETED }], rfl, fun a => ?_, fun h => hnn accounts rfl h⟩
    simpa [settle, commit] using hbal accounts rfl a
  | error e =>
    refine ⟨[{ pending with status := .FAILED }], rfl, fun a => ?_, fun h => h⟩
    simp [settle, commit, signedAmount]

/-- What a successful `atomicAdjustMany` of two adjustments did: both, one after the other. -/
theorem atomicAdjustMany_pair_ok (accounts adjusted : List Account) (first second : Nat)
    (delta1 delta2 : Int)
    (h : atomicAdjustMany accounts [(first, delta1), (second, delta2)] = .ok adjusted) :
    ∃ mid balance1 balance2,
      atomicAdjust accounts first delta1 = .ok (mid, balance1) ∧
      atomicAdjust mid second delta2 = .ok (adjusted, balance2) := by
  unfold atomicAdjustMany at h
  cases h1 : atomicAdjust accounts first delta1 with
  | error e => rw [h1] at h; simp at h
  | ok pair1 =>
    rcases pair1 with ⟨mid, balance1⟩
    rw [h1] at h
    simp only at h
    unfold atomicAdjustMany at h
    cases h2 : atomicAdjust mid second delta2 with
    | error e => rw [h2] at h; simp at h
    | ok pair2 =>
      rcases pair2 with ⟨last, balance2⟩
      rw [h2] at h
      simp only [atomicAdjustMany] at h
      cases h
      exact ⟨mid, balance1, balance2, rfl, h2⟩

/-- One request: the log grows by the Transactions recorded, every balance changes by the
signed amounts of exactly those, and non-negative balances stay non-negative. -/
theorem serve_step (s : State) (op : Operation) :
    ∃ new : List Transaction, (serve s op).state.log = s.log ++ new ∧
      (∀ a, balanceOf (serve s op).state.accounts a =
        (balanceOf s.accounts a).map (fun b => b + (new.map (signedAmount a)).sum)) ∧
      ((∀ x ∈ s.accounts, 0 ≤ x.balance) →
        ∀ x ∈ (serve s op).state.accounts, 0 ≤ x.balance) := by
  cases op with
  | deposit accountId amount description =>
    simp only [serve, deposit]
    split
    · exact reject_step s _
    · split
      · exact reject_step s _
      · apply settle_step
        · intro accounts hadj a
          cases hres : atomicAdjust s.accounts accountId amount with
          | error e => rw [hres] at hadj; simp [Except.map] at hadj
          | ok pair =>
            rcases pair with ⟨adjusted, newBalance⟩
            rw [hres] at hadj
            simp [Except.map] at hadj
            subst hadj
            rw [(atomicAdjust_ok _ _ _ _ _ hres).1, balanceOf_addToBalance]
            congr 1
            funext b
            by_cases haa : a = accountId
            · simp [signedAmount, haa]
            · have : ¬ accountId = a := fun h => haa h.symm
              simp [signedAmount, haa, this]
        · intro accounts hadj hnonneg
          cases hres : atomicAdjust s.accounts accountId amount with
          | error e => rw [hres] at hadj; simp [Except.map] at hadj
          | ok pair =>
            rcases pair with ⟨adjusted, newBalance⟩
            rw [hres] at hadj
            simp [Except.map] at hadj
            subst hadj
            obtain ⟨hadjusted, account, hget, hok, _⟩ := atomicAdjust_ok _ _ _ _ _ hres
            rw [hadjusted]
            exact addToBalance_nonneg _ _ _ account hget hok hnonneg
  | withdraw accountId amount description =>
    simp only [serve, withdraw]
    split
    · exact reject_step s _
    · split
      · exact reject_step s _
      · apply settle_step
        · intro accounts hadj a
          cases hres : atomicAdjust s.accounts accountId (-amount) with
          | error e => rw [hres] at hadj; simp [Except.map] at hadj
          | ok pair =>
            rcases pair with ⟨adjusted, newBalance⟩
            rw [hres] at hadj
            simp [Except.map] at hadj
            subst hadj
            rw [(atomicAdjust_ok _ _ _ _ _ hres).1, balanceOf_addToBalance]
            congr 1
            funext b
            by_cases haa : a = accountId
            · simp [signedAmount, haa]
            · have : ¬ accountId = a := fun h => haa h.symm
              simp [signedAmount, haa, this]
        · intro accounts hadj hnonneg
          cases hres : atomicAdjust s.accounts accountId (-amount) with
          | error e => rw [hres] at hadj; simp [Except.map] at hadj
          | ok pair =>
            rcases pair with ⟨adjusted, newBalance⟩
            rw [hres] at hadj
            simp [Except.map] at hadj
            subst hadj
            obtain ⟨hadjusted, account, hget, hok, _⟩ := atomicAdjust_ok _ _ _ _ _ hres
            rw [hadjusted]
            exact addToBalance_nonneg _ _ _ account hget hok hnonneg
  | transfer fromAccountId toAccountId amount description =>
    simp only [serve, transfer]
    split
    · exact reject_step s _
    · split
      · exact reject_step s _
      · split
        · exact reject_step s _
        · exact reject_step s _
        · apply settle_step
          · intro accounts hadj a
            obtain ⟨mid, b1, b2, h1, h2⟩ := atomicAdjustMany_pair_ok _ _ _ _ _ _ hadj
            rw [(atomicAdjust_ok _ _ _ _ _ h2).1, (atomicAdjust_ok _ _ _ _ _ h1).1,
              balanceOf_addToBalance, balanceOf_addToBalance, Option.map_map]
            congr 1
            funext b
            have hflip : ∀ x : Nat, (a = x) = (x = a) := fun x => propext eq_comm
            simp only [hflip, Function.comp]
            by_cases haf : fromAccountId = a <;> by_cases hat : toAccountId = a <;>
              simp [signedAmount, haf, hat]
          · intro accounts hadj hnonneg
            obtain ⟨mid, b1, b2, h1, h2⟩ := atomicAdjustMany_pair_ok _ _ _ _ _ _ hadj
            obtain ⟨hmid, account1, hget1, hok1, _⟩ := atomicAdjust_ok _ _ _ _ _ h1
            obtain ⟨hlast, account2, hget2, hok2, _⟩ := atomicAdjust_ok _ _ _ _ _ h2
            rw [hlast]
            apply addToBalance_nonneg _ _ _ account2 hget2 hok2
            rw [hmid]
            exact addToBalance_nonneg _ _ _ account1 hget1 hok1 hnonneg

/-- A sequence of requests: the log grows by the Transactions recorded, every balance
changes by the signed amounts of exactly those, and non-negative balances stay so. -/
theorem run_step (s : State) (ops : List Operation) :
    ∃ new : List Transaction, (run s ops).log = s.log ++ new ∧
      (∀ a, balanceOf (run s ops).accounts a =
        (balanceOf s.accounts a).map (fun b => b + (new.map (signedAmount a)).sum)) ∧
      ((∀ x ∈ s.accounts, 0 ≤ x.balance) → ∀ x ∈ (run s ops).accounts, 0 ≤ x.balance) := by
  induction ops generalizing s with
  | nil => exact ⟨[], by simp [run], fun a => by simp [run], fun h => h⟩
  | cons op rest ih =>
    obtain ⟨new1, hlog1, hbal1, hnn1⟩ := serve_step s op
    obtain ⟨new2, hlog2, hbal2, hnn2⟩ := ih (serve s op).state
    refine ⟨new1 ++ new2, ?_, fun a => ?_, fun h => hnn2 (hnn1 h)⟩
    · simp only [run]
      rw [hlog2, hlog1, List.append_assoc]
    · simp only [run]
      rw [hbal2 a, hbal1 a, Option.map_map]
      congr 1
      funext b
      simp [List.map_append, List.sum_append, add_assoc]

/-- C6: after any sequence of requests served from a state `s`, the log is the log of `s`
followed by the Transactions recorded since, the balance of every account is its balance
in `s` plus the sum of the signed amounts of the COMPLETED Transactions recorded since
(credits positive, debits negative), and if no balance is negative in `s` then none is
negative afterwards; the sequence being arbitrary, this holds after every operation. -/
theorem balance_is_initial_plus_signed_sum (s : State) (ops : List Operation) (a : Nat) :
    s.log <+: (run s ops).log ∧
    balanceOf (run s ops).accounts a =
      (balanceOf s.accounts a).map
        (fun b => b + (((run s ops).log.drop s.log.length).map (signedAmount a)).sum) ∧
    ((∀ x ∈ s.accounts, 0 ≤ x.balance) → ∀ x ∈ (run s ops).accounts, 0 ≤ x.balance) := by
  obtain ⟨new, hlog, hbal, hnn⟩ := run_step s ops
  refine ⟨⟨new, hlog.symm⟩, ?_, hnn⟩
  rw [hlog, List.drop_left]
  exact hbal a

/-- Witness for C6: the example requests served from the example state leave A with
100.00 + 5.00 + 50.00 - 155.00 = 0.00 and no balance negative. -/
theorem balance_is_initial_plus_signed_sum_witness :
    balanceOf (run exampleState exampleOperations).accounts 1 = some 0 ∧
    (((run exampleState exampleOperations).log.drop exampleState.log.length).map
      (signedAmount 1)).sum = -10000 ∧
    ∀ x ∈ (run exampleState exampleOperations).accounts, 0 ≤ x.balance := by
  refine ⟨?_, ?_, ?_⟩
  · decide
  · decide
  · exact (balance_is_initial_plus_signed_sum exampleState exampleOperations 1).2.2
      (by decide)

/-- An account found by `get` has its balance read by `balanceOf`. -/
theorem balanceOf_of_get (accounts : List Account) (accountId : Nat) (account : Account)
    (h : get accounts accountId = .ok account) :
    balanceOf accounts accountId = some account.balance := by
  unfold get at h
  unfold balanceOf
  cases hfind : List.find? (fun account => decide (account.id = accountId)) accounts with
  | none => rw [hfind] at h; simp at h
  | some found =>
    rw [hfind] at h
    simp only [Except.ok.injEq] at h
    subst h
    rfl

/-- A transfer of an amount that is not positive is rejected with InvalidAmount: no
Transaction is recorded and the state is left as it was. -/
theorem transfer_rejects_nonpositive (s : State) (fromAccountId toAccountId : Nat)
    (amount : Int) (description : String) (hle : amount ≤ 0) :
    transfer s fromAccountId toAccountId amount description = reject s .InvalidAmount := by
  simp [transfer, hle]

/-- C7: for every transfer of an amount that meets the precondition `amount > 0` between
two distinct existing accounts, either both legs apply (the source is debited by the
amount, the destination is credited by it, and the one Transaction recorded is a TRANSFER
with both ids set and status COMPLETED) or neither applies (the accounts, hence both
balances, are unchanged and the one Transaction recorded has status FAILED); in both
outcomes the sum of the two balances is what it was before. -/
theorem transfer_atomic (s : State) (fromAccountId toAccountId : Nat) (amount : Int)
    (description : String) (source destination : Account)
    (hpos : 0 < amount)
    (hne : fromAccountId ≠ toAccountId)
    (hfrom : get s.accounts fromAccountId = .ok source)
    (hto : get s.accounts toAccountId = .ok destination) :
    ((∃ t, (transfer s fromAccountId toAccountId amount description).transaction = some t ∧
        (transfer s fromAccountId toAccountId amount description).state.log = s.log ++ [t] ∧
        t.status = .COMPLETED ∧ t.transactionType = .TRANSFER ∧
        t.fromAccountId = some fromAccountId ∧ t.toAccountId = some toAccountId ∧
        t.amount = amount ∧
        (transfer s fromAccountId toAccountId amount description).error = none ∧
        balanceOf (transfer s fromAccountId toAccountId amount description).state.accounts
          fromAccountId = some (source.balance - amount) ∧
        balanceOf (transfer s fromAccountId toAccountId amount description).state.accounts
          toAccountId = some (destination.balance + amount)) ∨
      (∃ t e, (transfer s fromAccountId toAccountId amount description).transaction = some t ∧
        (transfer s fromAccountId toAccountId amount description).state.log = s.log ++ [t] ∧
        t.status = .FAILED ∧
        (transfer s fromAccountId toAccountId amount description).error = some e ∧
        (transfer s fromAccountId toAccountId amount description).state.accounts =
          s.accounts ∧
        balanceOf (transfer s fromAccountId toAccountId amount description).state.accounts
          fromAccountId = some source.balance ∧
        balanceOf (transfer s fromAccountId toAccountId amount description).state.accounts
          toAccountId = some destination.balance)) ∧
    ∃ b1 b2,
      balanceOf (transfer s fromAccountId toAccountId amount description).state.accounts
        fromAccountId = some b1 ∧
      balanceOf (transfer s fromAccountId toAccountId amount description).state.accounts
        toAccountId = some b2 ∧
      b1 + b2 = source.balance + destination.balance := by
  have hb1 := balanceOf_of_get _ _ _ hfrom
  have hb2 := balanceOf_of_get _ _ _ hto
  have hnot : ¬ amount ≤ 0 := not_le.mpr hpos
  have hunfold : transfer s fromAccountId toAccountId amount description =
      settle s
        { id := s.nextId, transactionType := .TRANSFER, fromAccountId := some fromAccountId
          toAccountId := some toAccountId, amount := amount, description := description
          status := .PENDING, createdAt := s.clock }
        (atomicAdjustMany s.accounts [(fromAccountId, -amount), (toAccountId, amount)]) := by
    simp [transfer, hnot, hne, hfrom, hto]
  rw [hunfold]
  cases hadj : atomicAdjustMany s.accounts [(fromAccountId, -amount), (toAccountId, amount)] with
  | error e =>
    refine ⟨Or.inr ⟨_, e, rfl, rfl, rfl, rfl, rfl, hb1, hb2⟩, ?_⟩
    exact ⟨source.balance, destination.balance, hb1, hb2, rfl⟩
  | ok adjusted =>
    obtain ⟨mid, b1, b2, h1, h2⟩ := atomicAdjustMany_pair_ok _ _ _ _ _ _ hadj
    have hsrc : balanceOf adjusted fromAccountId = some (source.balance - amount) := by
      rw [(atomicAdjust_ok _ _ _ _ _ h2).1, (atomicAdjust_ok _ _ _ _ _ h1).1,
        balanceOf_addToBalance, balanceOf_addToBalance, hb1]
      simp [hne]
      ring
    have hdst : balanceOf adjusted toAccountId = some (destination.balance + amount) := by
      rw [(atomicAdjust_ok _ _ _ _ _ h2).1, (atomicAdjust_ok _ _ _ _ _ h1).1,
        balanceOf_addToBalance, balanceOf_addToBalance, hb2]
      simp [Ne.symm hne]
    refine ⟨Or.inl ⟨_, rfl, rfl, rfl, rfl, rfl, rfl, rfl, rfl, hsrc, hdst⟩, ?_⟩
    exact ⟨_, _, hsrc, hdst, by ring⟩

/-- Witness for C7: the example of the specification, A = 100.00 and B = 50.00, where
`transfer(A, B, 30.00)` gives A = 70.00 and B = 80.00 with one COMPLETED Transaction, and
the sum of the two balances stays 150.00. -/
theorem transfer_atomic_witness :
    balanceOf (transfer exampleState 1 2 3000 "rent").state.accounts 1 = some 7000 ∧
    balanceOf (transfer exampleState 1 2 3000 "rent").state.accounts 2 = some 8000 ∧
    (transfer exampleState 1 2 3000 "rent").transaction =
      some { id := 1, transactionType := .TRANSFER, fromAccountId := some 1
             toAccountId := some 2, amount := 3000, description := "rent"
             status := .COMPLETED, createdAt := 0 } ∧
    ∃ b1 b2,
      balanceOf (transfer exampleState 1 2 3000 "rent").state.accounts 1 = some b1 ∧
      balanceOf (transfer exampleState 1 2 3000 "rent").state.accounts 2 = some b2 ∧
      b1 + b2 = 10000 + 5000 := by
  refine ⟨?_, ?_, ?_, ?_⟩
  · decide
  · decide
  · decide
  · exact (transfer_atomic exampleState 1 2 3000 "rent"
      { id := 1, accountNumber := "ACC1001", accountHolderName := "A", email := "a@example.com"
        accountType := "CHECKING", balance := 10000 }
      { id := 2, accountNumber := "ACC1002", accountHolderName := "B", email := "b@example.com"
        accountType := "SAVINGS", balance := 5000 }
      (by decide) (by decide) rfl rfl).2

end Ledger

end SecureBank
